import Mathlib

/-!
Shallow embedding of the crash-dashboard filtering and aggregation logic of
the poc_land repository (src/analysis/biai_strm2.py, biai_strm_viz2.py,
biai_strm_viz5.py, biai_strm_viz6.py, biai_strm_fin.py).

Records are rows of the normalized data frame.  Nullable columns (NaN cells
in pandas) are modelled with Option; monetary values are rationals, speed
limits are integers, dates are abstract ordinal keys (Nat), hours are Nat.
-/

/-- One normalized crash record (one data-frame row after load_data).
Fields carry the derived columns the claims are about: HOUR and DAY_NAME are
null when the timestamp failed to parse; Severity_Label is null for unmapped
severity codes; rpt_street_name is nullable in the source data. -/
structure CrashRecord where
  id : Nat
  hour : Option Nat
  dayName : Option String
  sevLabel : Option String
  roadType : Option String
  streetName : Option String
  date : Option Nat
  deathCnt : Nat
  cost : ℚ
  speedLimit : Int
  deriving DecidableEq

/-- FilterSpec of biai_strm2.py (lines 47-72): multiselects for severity,
road type and day, an inclusive hour range, and an optional street
multiselect.  Severity and road-type options come from unique(), which can
contain the null label, so those allow-lists hold Option String. -/
structure FilterSpec where
  severities : List (Option String)
  roadTypes : List (Option String)
  days : List String
  hourLo : Nat
  hourHi : Nat
  streets : List String

/-- Series.between on the nullable HOUR column: a null hour is never between
any bounds (NaN comparisons are false in pandas). -/
def hourBetween (h : Option Nat) (lo hi : Nat) : Bool :=
  match h with
  | none => false
  | some x => decide (lo ≤ x) && decide (x ≤ hi)

/-- DAY_NAME.isin(selected_days): the day options are the seven fixed
weekday strings, and a null day name matches none of them. -/
def dayOk (d : Option String) (days : List String) : Bool :=
  match d with
  | none => false
  | some s => days.contains s

/-- rpt_street_name.isin(search_street): the street options are produced by
dropna().unique(), so a null street name matches none of them. -/
def streetOk (s : Option String) (streets : List String) : Bool :=
  match s with
  | none => false
  | some str => streets.contains str

/-- The conjunction of the four boolean masks of biai_strm2.py lines 64-69:
severity membership, road-type membership, day membership and hour range. -/
def matchesPrimary (F : FilterSpec) (r : CrashRecord) : Bool :=
  decide (r.sevLabel ∈ F.severities) &&
  decide (r.roadType ∈ F.roadTypes) &&
  dayOk r.dayName F.days &&
  hourBetween r.hour F.hourLo F.hourHi

/-- The filtered frame df of biai_strm2.py lines 64-72: the conjunctive
mask, then (only when the street multiselect is non-empty, because an empty
list is falsy at line 71) the street membership mask. -/
def df_strm2 (D : List CrashRecord) (F : FilterSpec) : List CrashRecord :=
  let base := D.filter (matchesPrimary F)
  if F.streets.isEmpty then base
  else base.filter (fun r => streetOk r.streetName F.streets)

/-- FilterSpec of biai_strm_viz6.py lines 52-64: a single optional street
(the selectbox, none meaning the All Streets entry), a severity
multiselect, and an inclusive hour range. -/
structure FilterSpec6 where
  selectedStreet : Option String
  severities : List (Option String)
  hourLo : Nat
  hourHi : Nat

/-- df_filtered of biai_strm_viz6.py lines 58-65: the street equality mask
when a single street is selected, then severity membership and hour range. -/
def df_filtered (D : List CrashRecord) (F : FilterSpec6) : List CrashRecord :=
  let d1 := match F.selectedStreet with
    | none => D
    | some s => D.filter (fun r => decide (r.streetName = some s))
  d1.filter (fun r =>
    decide (r.sevLabel ∈ F.severities) && hourBetween r.hour F.hourLo F.hourHi)

/-- final_df of biai_strm_viz6.py lines 73 and 106-114: with no chart
selection the final view is the intermediate view; with a selected donut
label the final view is the rows whose Severity_Label equals that label.
No membership re-validation of the label is performed. -/
def final_df (view : List CrashRecord) (sel : Option String) : List CrashRecord :=
  match sel with
  | none => view
  | some lab => view.filter (fun r => decide (r.sevLabel = some lab))

/-- crash_speed_limit normalization of biai_strm_viz5.py lines 38-39 and
biai_strm_viz2.py lines 39-40: to_numeric with coercion models an
unparseable cell as none, fillna(0) replaces it with 0, and the loc
assignment clamps negative values to 0. -/
def crash_speed_limit_viz5 (raw : Option Int) : Int :=
  let v := raw.getD 0
  if v < 0 then 0 else v

/-- crash_speed_limit normalization of biai_strm_viz6.py line 28: fillna(0)
only; this variant has no clamping of negative values. -/
def crash_speed_limit_viz6 (raw : Option Int) : Int :=
  raw.getD 0

/-- map_size of biai_strm_viz2.py line 43, biai_strm_viz5.py line 40 and
biai_strm_viz6.py line 29: the lambda x if x greater than 0 else 5. -/
def map_size (speed : Int) : Int :=
  if 0 < speed then speed else 5

/-- The canonical weekday list day_list of biai_strm2.py line 55, also used
as the reindex target at line 107. -/
def dayList : List String :=
  ["Monday", "Tuesday", "Wednesday", "Thursday", "Friday", "Saturday", "Sunday"]

/-- Number of records of a view whose DAY_NAME equals the given day. -/
def cntDay (v : List CrashRecord) (d : String) : Nat :=
  (v.filter (fun r => decide (r.dayName = some d))).length

/-- The distinct non-null day names occurring in a view, in first-occurrence
order: the index of DAY_NAME.value_counts() (value_counts drops NaN). -/
def occDays (v : List CrashRecord) : List String :=
  (v.filterMap (fun r => r.dayName)).dedup

/-- DAY_NAME.value_counts() as an association list from occurring day names
to their occurrence counts (the descending-count ordering of value_counts
is immaterial here because reindex discards it). -/
def valueCountsDay (v : List CrashRecord) : List (String × Nat) :=
  (occDays v).map (fun d => (d, cntDay v d))

/-- day_counts of biai_strm2.py line 107:
value_counts().reindex(day_list).  Reindex emits one entry per canonical
weekday in Monday-Sunday order; a weekday absent from the counts gets a
missing (NaN) value because no fill value is supplied, modelled as none. -/
def day_counts (v : List CrashRecord) : List (String × Option Nat) :=
  dayList.map (fun d => (d, (valueCountsDay v).lookup d))

/-- The per-date sum of Estimated Total Comprehensive Cost over a view:
one group of groupby(Date) followed by sum. -/
def sumCostOn (v : List CrashRecord) (d : Nat) : ℚ :=
  ((v.filter (fun r => decide (r.date = some d))).map (fun r => r.cost)).sum

/-- The group keys of groupby(Date): the distinct non-null dates of the
view, in ascending order (pandas groupby sorts group keys; NaT keys are
dropped). -/
def datesOf (v : List CrashRecord) : List Nat :=
  ((v.filterMap (fun r => r.date)).dedup).insertionSort (· ≤ ·)

/-- Running accumulation of the per-date cost sums: the cumsum() pass over
the date-grouped sums, carrying the running total. -/
def cumCostAux (v : List CrashRecord) (acc : ℚ) : List Nat → List (Nat × ℚ)
  | [] => []
  | d :: ds => (d, acc + sumCostOn v d) :: cumCostAux v (acc + sumCostOn v d) ds

/-- ts_data of biai_strm_viz5.py line 100 and biai_strm_viz2.py line 95:
groupby(Date) sum of the comprehensive cost followed by cumsum, one row
per date in ascending date order. -/
def ts_data (v : List CrashRecord) : List (Nat × ℚ) :=
  cumCostAux v 0 (datesOf v)

/-- Whether the first character list is an initial segment of the second. -/
def isInitSeg : List Char → List Char → Bool
  | [], _ => true
  | _ :: _, [] => false
  | p :: ps, s :: ss => (p == s) && isInitSeg ps ss

/-- Whether the first character list occurs as a contiguous run of the
second (substring search over the character sequences). -/
def occursInChars (pat : List Char) : List Char → Bool
  | [] => pat.isEmpty
  | s :: ss => isInitSeg pat (s :: ss) || occursInChars pat ss

/-- Case-insensitive substring containment, modelling
Series.str.contains(pat, case=False) for one literal alternative of the
pattern: uppercase both character sequences and search. -/
def containsCI (pat s : String) : Bool :=
  occursInChars (pat.data.map Char.toUpper) (s.data.map Char.toUpper)

/-- str.contains with the pattern NOT REPORTED or UNKNOWN (the regex
alternation of biai_strm_viz6.py line 145), with na=True, negated by the
tilde: a record is reportable for street aggregation only when its street
name is non-null and matches neither alternative. -/
def isReportable (s : Option String) : Bool :=
  match s with
  | none => false
  | some str => !(containsCI "NOT REPORTED" str || containsCI "UNKNOWN" str)

/-- Lexicographic comparison of character lists by code point, the string
order pandas uses when groupby sorts its string keys. -/
def lexLe : List Char → List Char → Bool
  | [], _ => true
  | _ :: _, [] => false
  | a :: as, b :: bs =>
    if a.toNat < b.toNat then true
    else if b.toNat < a.toNat then false
    else lexLe as bs

/-- The sort order of string group keys: lexicographic by code point. -/
def strLE (a b : String) : Prop := lexLe a.data b.data = true

/-- Strictly earlier in the string sort order. -/
def strLT (a b : String) : Prop := strLE a b ∧ a ≠ b

instance : DecidableRel strLE :=
  fun a b => inferInstanceAs (Decidable (lexLe a.data b.data = true))

/-- risk_index of biai_strm_viz6.py lines 145-151 restricted to the Street
Name and Total Incidents columns (the ranking key; the summed death, injury
and cost columns do not participate in the ranking): filter to reportable
streets, group by street name with keys in ascending order (groupby sorts
keys), and count the rows of each group. -/
def risk_index (v : List CrashRecord) : List (String × Nat) :=
  let rdf := v.filter (fun r => isReportable r.streetName)
  let keys := ((rdf.filterMap (fun r => r.streetName)).dedup).insertionSort strLE
  keys.map (fun s => (s, (rdf.filter (fun r => decide (r.streetName = some s))).length))

/-- The comparison used by nlargest on the Total Incidents column: row a
ranks at least as high as row b when its count is at least the count of b. -/
def countGE (a b : String × Nat) : Prop := b.2 ≤ a.2

instance : DecidableRel countGE := fun a b => inferInstanceAs (Decidable (b.2 ≤ a.2))

instance : IsTotal (String × Nat) countGE := ⟨fun a b => Nat.le_total b.2 a.2⟩

instance : IsTrans (String × Nat) countGE := ⟨fun _ _ _ h1 h2 => Nat.le_trans h2 h1⟩

/-- nlargest(n, column) of biai_strm_viz6.py line 152 with the default
keep equal to first: stable descending sort on the ranking column, then
take the first n rows. -/
def nlargestBy (n : Nat) (rows : List (String × Nat)) : List (String × Nat) :=
  (rows.insertionSort countGE).take n

/-- The ranked table shown in the High-Risk Index tab: risk_index followed
by nlargest on Total Incidents. -/
def topStreets (n : Nat) (v : List CrashRecord) : List (String × Nat) :=
  nlargestBy n (risk_index v)

/-- Sum of death_cnt over a view. -/
def sumDeaths (v : List CrashRecord) : Nat :=
  (v.map (fun r => r.deathCnt)).sum

/-- fatality_rate of biai_strm2.py line 86: death_cnt sum over row count
times 100 when the view is non-empty, else 0. -/
def fatality_rate (v : List CrashRecord) : ℚ :=
  if 0 < v.length then (sumDeaths v : ℚ) / (v.length : ℚ) * 100 else 0

instance : IsTotal String strLE := ⟨by
  intro a b
  have h : ∀ as bs : List Char, lexLe as bs = true ∨ lexLe bs as = true := by
    intro as
    induction as with
    | nil => intro bs; left; rfl
    | cons x xs ih =>
      intro bs
      cases bs with
      | nil => right; rfl
      | cons y ys =>
        by_cases h1 : x.toNat < y.toNat
        · left; simp [lexLe, h1]
        · by_cases h2 : y.toNat < x.toNat
          · right; simp [lexLe, h2]
          · rcases ih ys with h | h
            · left; simp [lexLe, h1, h2, h]
            · right; simp [lexLe, h1, h2, h]
  exact h a.data b.data⟩

instance : IsTrans String strLE := ⟨by
  intro a b c hab hbc
  have h : ∀ as bs cs : List Char,
      lexLe as bs = true → lexLe bs cs = true → lexLe as cs = true := by
    intro as
    induction as with
    | nil => intro bs cs _ _; rfl
    | cons x xs ih =>
      intro bs cs hab hbc
      cases bs with
      | nil => simp [lexLe] at hab
      | cons y ys =>
        cases cs with
        | nil => simp [lexLe] at hbc
        | cons z zs =>
          simp only [lexLe] at hab hbc ⊢
          by_cases h1 : x.toNat < y.toNat
          · by_cases h2 : y.toNat < z.toNat
            · have hxz : x.toNat < z.toNat := by omega
              simp [hxz]
            · by_cases h3 : z.toNat < y.toNat
              · rw [if_neg h2, if_pos h3] at hbc
                exact absurd hbc (by simp)
              · have hxz : x.toNat < z.toNat := by omega
                simp [hxz]
          · by_cases h4 : y.toNat < x.toNat
            · rw [if_neg h1, if_pos h4] at hab
              exact absurd hab (by simp)
            · rw [if_neg h1, if_neg h4] at hab
              by_cases h2 : y.toNat < z.toNat
              · have hxz : x.toNat < z.toNat := by omega
                simp [hxz]
              · by_cases h3 : z.toNat < y.toNat
                · rw [if_neg h2, if_pos h3] at hbc
                  exact absurd hbc (by simp)
                · rw [if_neg h2, if_neg h3] at hbc
                  have hxz : ¬ x.toNat < z.toNat := by omega
                  have hzx : ¬ z.toNat < x.toNat := by omega
                  rw [if_neg hxz, if_neg hzx]
                  exact ih ys zs hab hbc
  exact h a.data b.data c.data hab hbc⟩

/-- The tie-break order visible in the ranked table: rows with equal
ranking values appear in ascending street-name order. -/
def tieOrder (a b : String × Nat) : Prop := a.2 = b.2 → strLT a.1 b.1

/-- A concrete Monday fatal crash on street B ST, used as a test row. -/
def recMon : CrashRecord :=
  { id := 1, hour := some 8, dayName := some "Monday", sevLabel := some "Fatal",
    roadType := some "Highway/On-System", streetName := some "B ST", date := some 3,
    deathCnt := 2, cost := 10, speedLimit := 30 }

/-- A second test row identical to recMon except on street A ST. -/
def recA : CrashRecord :=
  { recMon with id := 2, streetName := some "A ST" }

/-- A test row whose timestamp failed to parse: null hour and day name. -/
def recNoHour : CrashRecord :=
  { recMon with id := 3, hour := none, dayName := none }

/-- A test row with the No Injury severity label. -/
def recNoInj : CrashRecord :=
  { recMon with id := 4, sevLabel := some "No Injury", cost := 0 }

/-- A test FilterSpec with an empty severity allow-list and every other
dimension permissive. -/
def specEmptySev : FilterSpec :=
  { severities := [], roadTypes := [some "Highway/On-System"], days := dayList,
    hourLo := 0, hourHi := 23, streets := [] }

/-- A fully permissive test FilterSpec covering the test rows. -/
def specFull : FilterSpec :=
  { severities := [some "Fatal", some "No Injury"],
    roadTypes := [some "Highway/On-System"], days := dayList,
    hourLo := 0, hourHi := 23, streets := [] }

theorem mem_df_strm2 {D : List CrashRecord} {F : FilterSpec} {r : CrashRecord} :
    r ∈ df_strm2 D F ↔
      r ∈ D ∧ matchesPrimary F r = true ∧
        (F.streets = [] ∨ streetOk r.streetName F.streets = true) := by
  unfold df_strm2
  by_cases h : F.streets.isEmpty
  · have he : F.streets = [] := List.isEmpty_iff.mp h
    simp [h, List.mem_filter, he]
  · have he : ¬ F.streets = [] := fun hh => h (by simp [hh])
    simp [h, List.mem_filter, he]
    tauto

theorem matchesPrimary_iff {F : FilterSpec} {r : CrashRecord} :
    matchesPrimary F r = true ↔
      r.sevLabel ∈ F.severities ∧ r.roadType ∈ F.roadTypes ∧
      dayOk r.dayName F.days = true ∧
      hourBetween r.hour F.hourLo F.hourHi = true := by
  simp [matchesPrimary, and_assoc]

/-- Claim C2: with an empty severity allow-list the filter returns the
empty view, and in general a record is kept exactly when its severity label
is a member of the selected severity set and every other conjunctive clause
(road type, day, hour range, optional street restriction) also holds. -/
theorem c2_empty_severity_matches_nothing (D : List CrashRecord) (F : FilterSpec) :
    (F.severities = [] → df_strm2 D F = []) ∧
    (∀ r, r ∈ df_strm2 D F ↔
      r ∈ D ∧ r.sevLabel ∈ F.severities ∧ r.roadType ∈ F.roadTypes ∧
      dayOk r.dayName F.days = true ∧ hourBetween r.hour F.hourLo F.hourHi = true ∧
      (F.streets = [] ∨ streetOk r.streetName F.streets = true)) := by
  have hchar : ∀ r, r ∈ df_strm2 D F ↔
      r ∈ D ∧ r.sevLabel ∈ F.severities ∧ r.roadType ∈ F.roadTypes ∧
      dayOk r.dayName F.days = true ∧ hourBetween r.hour F.hourLo F.hourHi = true ∧
      (F.streets = [] ∨ streetOk r.streetName F.streets = true) := by
    intro r
    rw [mem_df_strm2, matchesPrimary_iff]
    tauto
  refine ⟨?_, hchar⟩
  intro hemp
  refine List.eq_nil_iff_forall_not_mem.mpr (fun r hr => ?_)
  have := (hchar r).mp hr
  rw [hemp] at this
  simp at this

/-- Claim C2 witness: the empty-severity FilterSpec filters a non-empty
dataset down to the empty view. -/
theorem c2_empty_severity_matches_nothing_witness :
    df_strm2 [recMon] specEmptySev = [] :=
  (c2_empty_severity_matches_nothing [recMon] specEmptySev).1 rfl

/-- Claim C7: a record whose timestamp failed to parse has a null hour and
is excluded by the hour-range clause for every requested inclusive range,
including the full range 0 to 23. -/
theorem c7_null_hour_excluded (D : List CrashRecord) (F : FilterSpec) (r : CrashRecord)
    (_hlo : F.hourLo ≤ F.hourHi) (_hhi : F.hourHi ≤ 23) (h : r.hour = none) :
    r ∉ df_strm2 D F := by
  intro hmem
  have hm := (mem_df_strm2.mp hmem).2.1
  rw [matchesPrimary_iff] at hm
  have := hm.2.2.2
  rw [h] at this
  simp [hourBetween] at this

/-- Claim C7 witness: the null-hour record is excluded even by the fully
permissive FilterSpec with the full hour range. -/
theorem c7_null_hour_excluded_witness :
    recNoHour ∉ df_strm2 [recNoHour] specFull :=
  c7_null_hour_excluded [recNoHour] specFull recNoHour (by decide) (by decide) rfl

/-- Claim C1: selecting severity label L in the drill-down stage yields
exactly the records of the primary filtered view whose severity label
equals L, in the original order (a sublist), and clearing the selection
yields exactly the primary filtered view. -/
theorem c1_drilldown_exact (D : List CrashRecord) (F : FilterSpec6) (L : String) :
    final_df (df_filtered D F) none = df_filtered D F ∧
    (final_df (df_filtered D F) (some L)).Sublist (df_filtered D F) ∧
    (∀ r, r ∈ final_df (df_filtered D F) (some L) ↔
      r ∈ df_filtered D F ∧ r.sevLabel = some L) := by
  refine ⟨rfl, List.filter_sublist _, fun r => ?_⟩
  simp [final_df, List.mem_filter]

/-- Claim C9 counterexample: with a view that does not contain the selected
label, the drill-down does not fall back to the unselected view (it keeps
filtering by the stale label instead of reverting to NoSelection). -/
theorem c9_no_revalidation_cex :
    (∀ r ∈ [recNoInj], r.sevLabel ≠ some "Fatal") ∧
    final_df [recNoInj] (some "Fatal") ≠ [recNoInj] := by decide

/-- Claim C9 amended: the coordinator performs no re-validation of the
selected label; when the label no longer occurs in the intermediate view
the final view is the empty view produced by the stale selection. -/
theorem c9_stale_selection_empty_view (view : List CrashRecord) (L : String)
    (h : ∀ r ∈ view, r.sevLabel ≠ some L) :
    final_df view (some L) = [] := by
  simp only [final_df]
  rw [List.filter_eq_nil_iff]
  intro r hr
  simp [h r hr]

/-- Claim C9 amended witness: a stale Fatal selection over a view without
Fatal records yields the empty final view. -/
theorem c9_stale_selection_empty_view_witness :
    final_df [recNoInj] (some "Fatal") = [] :=
  c9_stale_selection_empty_view [recNoInj] "Fatal" (by decide)

/-- Claim C3 counterexample: the viz6 variant does not clamp negative
speed limits, so a source value of -5 normalizes to -5, which is
negative. -/
theorem c3_viz6_negative_speed_cex :
    crash_speed_limit_viz6 (some (-5)) = -5 ∧ crash_speed_limit_viz6 (some (-5)) < 0 := by
  decide

/-- Claim C3 amended: the viz5 and viz2 normalization always yields a
non-negative speed limit (missing values default to 0 and negative values
clamp to 0), while the viz6 normalization defaults missing values to 0 but
preserves negative source values unchanged. -/
theorem c3_speed_limit_normalization :
    (∀ raw : Option Int, 0 ≤ crash_speed_limit_viz5 raw) ∧
    crash_speed_limit_viz6 none = 0 ∧
    (∀ x : Int, crash_speed_limit_viz6 (some x) = x) := by
  refine ⟨fun raw => ?_, rfl, fun x => rfl⟩
  simp only [crash_speed_limit_viz5]
  split_ifs with h <;> omega

/-- Claim C4 counterexample: a record with a positive speed limit of 3 gets
a map marker size of 3, which is below the claimed minimum of 5. -/
theorem c4_small_speed_marker_cex :
    (0:Int) < 3 ∧ map_size 3 = 3 ∧ ¬ (5 ≤ map_size 3) := by decide

/-- Claim C4 amended: the marker size equals the speed limit whenever the
speed limit is positive and equals 5 otherwise; hence it is at least 5
exactly when the speed limit is not strictly between 0 and 5. -/
theorem c4_map_marker_size (s : Int) :
    (0 < s → map_size s = s) ∧ (s ≤ 0 → map_size s = 5) ∧
    (¬ (0 < s ∧ s < 5) → 5 ≤ map_size s) := by
  unfold map_size
  refine ⟨fun h => if_pos h, fun h => if_neg (by omega), fun h => ?_⟩
  split_ifs with h0 <;> omega

/-- Claim C4 amended witness: concrete marker sizes for speeds 30 and -2. -/
theorem c4_map_marker_size_witness :
    map_size 30 = 30 ∧ map_size (-2) = 5 ∧ 5 ≤ map_size 30 :=
  ⟨(c4_map_marker_size 30).1 (by decide), (c4_map_marker_size (-2)).2.1 (by decide),
   (c4_map_marker_size 30).2.2 (by decide)⟩

/-- Claim C10: the Fatality Rate KPI is 0 on an empty filtered view and the
death-count sum over the row count times 100 on a non-empty view. -/
theorem c10_fatality_rate_guard (v : List CrashRecord) :
    (v.length = 0 → fatality_rate v = 0) ∧
    (0 < v.length → fatality_rate v = (sumDeaths v : ℚ) / (v.length : ℚ) * 100) := by
  constructor
  · intro h
    unfold fatality_rate
    rw [h]
    simp
  · intro h
    unfold fatality_rate
    rw [if_pos h]

/-- Claim C10 witness: the rate of the empty view is 0 and the rate of a
one-record view is given by the division formula. -/
theorem c10_fatality_rate_guard_witness :
    fatality_rate [] = 0 ∧
    fatality_rate [recMon] =
      (sumDeaths [recMon] : ℚ) / (([recMon] : List CrashRecord).length : ℚ) * 100 :=
  ⟨(c10_fatality_rate_guard []).1 rfl, (c10_fatality_rate_guard [recMon]).2 (by decide)⟩

theorem lookup_keyed_map (f : String → Nat) (l : List String) (k : String) :
    (l.map (fun d => (d, f d))).lookup k = if k ∈ l then some (f k) else none := by
  induction l with
  | nil => simp
  | cons a as ih =>
    by_cases h : k = a
    · subst h
      simp [List.lookup]
    · have hb : (k == a) = false := beq_eq_false_iff_ne.mpr h
      simp [List.lookup, hb, ih, List.mem_cons, h]

theorem cntDay_pos_iff (v : List CrashRecord) (d : String) :
    0 < cntDay v d ↔ d ∈ occDays v := by
  unfold cntDay occDays
  rw [List.mem_dedup, List.mem_filterMap]
  constructor
  · intro h
    obtain ⟨r, hr⟩ := List.exists_mem_of_length_pos h
    have hm := List.mem_filter.mp hr
    exact ⟨r, hm.1, of_decide_eq_true hm.2⟩
  · rintro ⟨r, hrv, hd⟩
    exact List.length_pos_of_mem (List.mem_filter.mpr ⟨hrv, decide_eq_true hd⟩)

/-- Claim C5 amended: the day-of-week aggregation returns exactly 7 groups
in canonical Monday-to-Sunday order, but a weekday absent from the input
view carries a missing (null) count entry, not a count of 0, because the
reindex supplies no fill value. -/
theorem c5_day_counts_reindex (v : List CrashRecord) :
    day_counts v =
      dayList.map (fun d => (d, if 0 < cntDay v d then some (cntDay v d) else none)) ∧
    (day_counts v).length = 7 ∧
    (day_counts v).map Prod.fst = dayList := by
  have hmain : day_counts v =
      dayList.map (fun d => (d, if 0 < cntDay v d then some (cntDay v d) else none)) := by
    unfold day_counts valueCountsDay
    apply List.map_congr_left
    intro d _
    rw [lookup_keyed_map]
    by_cases h : d ∈ occDays v
    · rw [if_pos h, if_pos ((cntDay_pos_iff v d).mpr h)]
    · rw [if_neg h, if_neg (fun hp => h ((cntDay_pos_iff v d).mp hp))]
  refine ⟨hmain, ?_, ?_⟩
  · rw [hmain]
    simp [dayList]
  · rw [hmain, List.map_map]
    have hid : (Prod.fst ∘ fun d : String =>
        (d, if 0 < cntDay v d then some (cntDay v d) else none)) = id := rfl
    rw [hid, List.map_id]

/-- Claim C5 counterexample: a view with a single Monday record yields
null (missing) entries for the six absent weekdays, and in particular the
pair of Tuesday with count 0 is not among the aggregation rows. -/
theorem c5_absent_day_null_cex :
    day_counts [recMon] =
      [("Monday", some 1), ("Tuesday", none), ("Wednesday", none), ("Thursday", none),
       ("Friday", none), ("Saturday", none), ("Sunday", none)] ∧
    ("Tuesday", some 0) ∉ day_counts [recMon] := by decide

theorem cumCostAux_fst (v : List CrashRecord) (acc : ℚ) (ds : List Nat) :
    (cumCostAux v acc ds).map Prod.fst = ds := by
  induction ds generalizing acc with
  | nil => rfl
  | cons d ds ih => simp [cumCostAux, ih]

theorem cumCostAux_snd_lb (v : List CrashRecord) (acc : ℚ) (ds : List Nat)
    (h : ∀ d ∈ ds, 0 ≤ sumCostOn v d) :
    ∀ x ∈ (cumCostAux v acc ds).map Prod.snd, acc ≤ x := by
  induction ds generalizing acc with
  | nil => intro x hx; simp [cumCostAux] at hx
  | cons d ds ih =>
    intro x hx
    simp only [cumCostAux, List.map_cons, List.mem_cons] at hx
    have hd : 0 ≤ sumCostOn v d := h d (List.mem_cons_self _ _)
    rcases hx with rfl | hx
    · linarith
    · have := ih (acc + sumCostOn v d) (fun e he => h e (List.mem_cons_of_mem _ he)) x hx
      linarith

theorem cumCostAux_sorted (v : List CrashRecord) (acc : ℚ) (ds : List Nat)
    (h : ∀ d ∈ ds, 0 ≤ sumCostOn v d) :
    List.Sorted (· ≤ ·) ((cumCostAux v acc ds).map Prod.snd) := by
  induction ds generalizing acc with
  | nil => simp [cumCostAux]
  | cons d ds ih =>
    simp only [cumCostAux, List.map_cons]
    refine List.Pairwise.cons ?_
      (ih (acc + sumCostOn v d) (fun e he => h e (List.mem_cons_of_mem _ he)))
    intro y hy
    exact cumCostAux_snd_lb v (acc + sumCostOn v d) ds
      (fun e he => h e (List.mem_cons_of_mem _ he)) y hy

theorem sumCostOn_nonneg (v : List CrashRecord) (h : ∀ r ∈ v, 0 ≤ r.cost) (d : Nat) :
    0 ≤ sumCostOn v d := by
  unfold sumCostOn
  apply List.sum_nonneg
  intro x hx
  obtain ⟨r, hr, rfl⟩ := List.mem_map.mp hx
  exact h r (List.mem_filter.mp hr).1

/-- Claim C6: when every cost in the view is non-negative, the cumulative
time series is listed in ascending date order and its running-sum values
are monotonically non-decreasing along that order. -/
theorem c6_cumulative_cost_monotone (v : List CrashRecord)
    (h : ∀ r ∈ v, 0 ≤ r.cost) :
    List.Sorted (· ≤ ·) (datesOf v) ∧
    (ts_data v).map Prod.fst = datesOf v ∧
    List.Sorted (· ≤ ·) ((ts_data v).map Prod.snd) := by
  refine ⟨?_, cumCostAux_fst v 0 (datesOf v), ?_⟩
  · unfold datesOf
    exact List.sorted_insertionSort _ _
  · exact cumCostAux_sorted v 0 (datesOf v) (fun d _ => sumCostOn_nonneg v h d)

/-- Claim C6 witness: the cumulative series of a concrete two-record view
with non-negative costs is sorted in both components. -/
theorem c6_cumulative_cost_monotone_witness :
    List.Sorted (· ≤ ·) (datesOf [recMon, recA]) ∧
    (ts_data [recMon, recA]).map Prod.fst = datesOf [recMon, recA] ∧
    List.Sorted (· ≤ ·) ((ts_data [recMon, recA]).map Prod.snd) :=
  c6_cumulative_cost_monotone [recMon, recA] (by decide)

theorem tie_orderedInsert (x : String × Nat) (l : List (String × Nat))
    (hl : List.Pairwise tieOrder l) (hx : ∀ y ∈ l, tieOrder x y) :
    List.Pairwise tieOrder (List.orderedInsert countGE x l) := by
  induction l with
  | nil => simp [List.orderedInsert, List.pairwise_singleton]
  | cons b bs ih =>
    rw [List.orderedInsert]
    by_cases h : countGE x b
    · rw [if_pos h]
      exact List.Pairwise.cons hx hl
    · rw [if_neg h]
      have hcons := List.pairwise_cons.mp hl
      refine List.Pairwise.cons ?_
        (ih hcons.2 (fun y hy => hx y (List.mem_cons_of_mem _ hy)))
      intro z hz
      rcases (List.mem_orderedInsert _).mp hz with rfl | hzbs
      · intro heq
        exact absurd (le_of_eq heq) h
      · exact hcons.1 z hzbs

theorem tie_insertionSort (l : List (String × Nat)) (hl : List.Pairwise tieOrder l) :
    List.Pairwise tieOrder (List.insertionSort countGE l) := by
  induction l with
  | nil => simp
  | cons x xs ih =>
    have hcons := List.pairwise_cons.mp hl
    rw [List.insertionSort]
    apply tie_orderedInsert _ _ (ih hcons.2)
    intro y hy
    exact hcons.1 y ((List.mem_insertionSort _).mp hy)

theorem risk_index_pairwise_tie (v : List CrashRecord) :
    List.Pairwise tieOrder (risk_index v) := by
  have main : ∀ (rdf : List CrashRecord),
      List.Pairwise tieOrder
        ((((rdf.filterMap (fun r => r.streetName)).dedup).insertionSort strLE).map
          (fun s => (s, (rdf.filter (fun r => decide (r.streetName = some s))).length))) := by
    intro rdf
    have hsorted := List.sorted_insertionSort strLE
      ((rdf.filterMap (fun r => r.streetName)).dedup)
    have hnodup :
        (((rdf.filterMap (fun r => r.streetName)).dedup).insertionSort strLE).Nodup :=
      ((List.perm_insertionSort strLE _).nodup_iff).mpr (List.nodup_dedup _)
    have hlt : List.Pairwise strLT
        (((rdf.filterMap (fun r => r.streetName)).dedup).insertionSort strLE) :=
      (hsorted.and hnodup).imp (fun h => ⟨h.1, h.2⟩)
    rw [List.pairwise_map]
    refine hlt.imp ?_
    intro a b h _
    exact h
  exact main (v.filter (fun r => isReportable r.streetName))

/-- Claim C8 amended: the top-N ranking contains at most N groups, is
sorted descending on the ranking field, and breaks ties by ascending
group-key (street-name) order, the row order of the sorted grouped table,
rather than by first-encountered group order; re-invocation is identical
because the ranking is a pure function of the view. -/
theorem c8_topn_ranking (v : List CrashRecord) (n : Nat) :
    (topStreets n v).length ≤ n ∧
    List.Sorted countGE (topStreets n v) ∧
    List.Pairwise tieOrder (topStreets n v) := by
  unfold topStreets nlargestBy
  refine ⟨?_, ?_, ?_⟩
  · rw [List.length_take]
    exact min_le_left _ _
  · exact List.Pairwise.sublist (List.take_sublist _ _)
      (List.sorted_insertionSort countGE (risk_index v))
  · exact List.Pairwise.sublist (List.take_sublist _ _)
      (tie_insertionSort _ (risk_index_pairwise_tie v))

/-- Claim C8 counterexample: two streets tie with one incident each and
B ST is encountered first in the data, yet the top-1 ranking returns A ST
(the ascending group-key order of the grouped table), not the
first-encountered street B ST. -/
theorem c8_tiebreak_cex :
    topStreets 1 [recMon, recA] = [("A ST", 1)] ∧
    topStreets 1 [recMon, recA] ≠ [("B ST", 1)] := by decide
